import Mathlib

/-!
Verification of the overf math-block rewriter.

The crate rewrites arithmetic inside a block according to an overflow
policy (checked, overflowing, saturating, propagating), with a reset
entry point restoring default semantics.  The entry points `default`,
`expand` and `try_expand` are embedded from src/src/lib.rs; the rewrite
strategies (module block), the expression rewriter (module expr) and the
block visitor (module visitor) are not shipped in src/, so they are
modelled from the spec, each such definition marked in its doc comment.
-/

namespace Overf

/-- Description of a Rust machine-integer type: a bit width together
with a signedness flag (u8, i8, u16, ..., usize, isize all fit). -/
structure IntTy where
  bits : Nat
  signed : Bool
deriving DecidableEq

/-- Smallest representable value of the type. -/
def IntTy.intMin (t : IntTy) : Int :=
  if t.signed then -(2 ^ (t.bits - 1)) else 0

/-- Largest representable value of the type. -/
def IntTy.intMax (t : IntTy) : Int :=
  if t.signed then 2 ^ (t.bits - 1) - 1 else 2 ^ t.bits - 1

/-- Membership of a mathematical integer in the representable range. -/
def IntTy.inRange (t : IntTy) (x : Int) : Prop :=
  t.intMin ≤ x ∧ x ≤ t.intMax

instance (t : IntTy) (x : Int) : Decidable (t.inRange x) := by
  unfold IntTy.inRange
  infer_instance

/-- Two's-complement wraparound of an integer into the representable
range: the unique in-range value congruent to the input modulo 2^bits. -/
def IntTy.wrap (t : IntTy) (x : Int) : Int :=
  (x - t.intMin) % 2 ^ t.bits + t.intMin

/-- Clamp an integer into the representable range. -/
def IntTy.clamp (t : IntTy) (x : Int) : Int :=
  if x < t.intMin then t.intMin
  else if t.intMax < x then t.intMax
  else x

/-- The unsigned 8-bit type, used as a concrete instance. -/
def u8 : IntTy := ⟨8, false⟩

/-- The signed 8-bit type, used as a concrete instance. -/
def i8 : IntTy := ⟨8, true⟩

/-- The five binary arithmetic operators governed by the rewriter. -/
inductive BinOp
  | add
  | sub
  | mul
  | div
  | rem
deriving DecidableEq

/-- The exact mathematical result of a binary operator on integers,
with Rust semantics for division (truncation toward zero) and remainder
(sign of the dividend); `none` on division or remainder by zero, which
has no mathematical result (and which every Rust form of the operator,
default included, treats as a failure). -/
def trueResult : BinOp → Int → Int → Option Int
  | .add, a, b => some (a + b)
  | .sub, a, b => some (a - b)
  | .mul, a, b => some (a * b)
  | .div, a, b => if b = 0 then none else some (Int.tdiv a b)
  | .rem, a, b => if b = 0 then none else some (Int.tmod a b)

/-- Semantics of the Rust `checked_*` family at type `t`: the true
result when it exists and is representable, `none` (the overflow /
division-by-zero signal) otherwise. -/
def checkedOp (t : IntTy) (op : BinOp) (a b : Int) : Option Int :=
  match trueResult op a b with
  | none => none
  | some r => if t.inRange r then some r else none

/-- The operation has no representable result: either it overflows the
type or it is a division/remainder by zero — the spec funnels both
through the same checked failure mechanism. -/
def overflows (t : IntTy) (op : BinOp) (a b : Int) : Prop :=
  match trueResult op a b with
  | none => True
  | some r => ¬ t.inRange r

instance (t : IntTy) (op : BinOp) (a b : Int) : Decidable (overflows t op a b) := by
  unfold overflows
  rcases trueResult op a b with _ | r <;> infer_instance

/-- Modelled from the spec: module block is not in src/. Runtime value
of the code the Checked policy emits for one operator node — a call to
the checked form of the operator followed by an unwrap that aborts on
the overflow signal.  `none` models the abort (panic). -/
def checkedEval (t : IntTy) (op : BinOp) (a b : Int) : Option Int :=
  checkedOp t op a b

/-- Modelled from the spec: module block is not in src/. Runtime value
of the code the Overflowing policy emits — the wrapping form of the
operator.  `none` only when the operator itself has no result
(division by zero), never because of overflow. -/
def overflowingEval (t : IntTy) (op : BinOp) (a b : Int) : Option Int :=
  (trueResult op a b).map t.wrap

/-- Modelled from the spec: module block is not in src/. Runtime value
of the code the Saturating policy emits — the saturating form of the
operator, clamping out-of-range results to the bounds of the type. -/
def saturatingEval (t : IntTy) (op : BinOp) (a b : Int) : Option Int :=
  (trueResult op a b).map t.clamp

/-- Modelled from the spec: module block is not in src/. Runtime value
of the code the Propagating policy emits — the checked form of the
operator followed by the short-circuit propagation operator; `none`
models the early return of the absent value from the enclosing
function. -/
def propagatingEval (t : IntTy) (op : BinOp) (a b : Int) : Option Int :=
  checkedOp t op a b

/-- Result of the host language's default operator in the absence of
overflow: the mathematical result (Rust's default `+`, `-`, `*`, `/`,
`%` agree with it whenever it is representable). -/
def defaultOpResult (op : BinOp) (a b : Int) : Option Int :=
  trueResult op a b

/-- The five policies: the four rewriting ones plus the base (default)
policy, which performs no rewriting and sits at the bottom of the
policy scope stack. -/
inductive Policy
  | default
  | checked
  | overflowing
  | saturating
  | propagating
deriving DecidableEq

/-- Expressions seen by the rewriter: literals, opaque non-arithmetic
expressions (passed through), binary arithmetic nodes, and the
call-like replacement form a rewrite produces (recording the policy,
the operation and the operands). -/
inductive Expr
  | lit (n : Int)
  | other (tag : Nat)
  | bin (op : BinOp) (a b : Expr)
  | rewritten (p : Policy) (op : BinOp) (a b : Expr)

/-- Statements of a block: an expression statement, a plain nested
block, or a nested policy-block invocation (a nested macro call;
`Policy.default` here is the reset invocation). -/
inductive Stmt
  | expr (e : Expr)
  | block (stmts : List Stmt)
  | policyBlock (p : Policy) (stmts : List Stmt)

/-- Modelled from the spec: module expr is not in src/. The expression
rewriter under the active policy: arithmetic operator nodes are
replaced by the policy's call-like form (none under the base policy),
other shapes pass through with their children recursed into. -/
def visitExpr (p : Policy) : Expr → Expr
  | .lit n => .lit n
  | .other tag => .other tag
  | .bin op a b =>
    match p with
    | .default => .bin op (visitExpr p a) (visitExpr p b)
    | _ => .rewritten p op (visitExpr p a) (visitExpr p b)
  | .rewritten q op a b => .rewritten q op (visitExpr p a) (visitExpr p b)

mutual

/-- Modelled from the spec: module visitor is not in src/. The block
visitor on one statement under the active policy: expression statements
are handed to the rewriter, nested blocks are recursed into under the
same policy, and a nested policy-block invocation switches to its
policy for exactly its own statements (push, visit, pop expressed as
recurse-with-new-value). -/
def visitStmt (p : Policy) : Stmt → Stmt
  | .expr e => .expr (visitExpr p e)
  | .block ss => .block (visitStmts p ss)
  | .policyBlock q ss => .block (visitStmts q ss)

/-- Modelled from the spec: module visitor is not in src/. The block
visitor on a list of statements, in source order. -/
def visitStmts (p : Policy) : List Stmt → List Stmt
  | [] => []
  | s :: rest => visitStmt p s :: visitStmts p rest

end

/-- A compile-time error produced by the external syn parser. -/
structure SynError where
  msg : Nat
deriving DecidableEq

/-- Output tokens: a compile-error diagnostic node, a symbol, or an
integer literal. -/
inductive Tok
  | diag (msg : Nat)
  | sym (n : Nat)
  | int (n : Int)
deriving DecidableEq

/-- A stream of output tokens. -/
abbrev TokenStream := List Tok

/-- Serialization of a syn error into its compile-error invocation: a
single diagnostic node carrying the message. -/
def SynError.to_compile_error (e : SynError) : TokenStream :=
  [Tok.diag e.msg]

/-- Numeric tag of a binary operator, for serialization. -/
def opTok : BinOp → Nat
  | .add => 0
  | .sub => 1
  | .mul => 2
  | .div => 3
  | .rem => 4

/-- Numeric tag of a policy, for serialization. -/
def policyTok : Policy → Nat
  | .default => 0
  | .checked => 1
  | .overflowing => 2
  | .saturating => 3
  | .propagating => 4

/-- Serialization of an expression into tokens. -/
def exprTokens : Expr → TokenStream
  | .lit n => [.int n]
  | .other tag => [.sym (100 + tag)]
  | .bin op a b => .sym 0 :: .sym (opTok op) :: (exprTokens a ++ exprTokens b)
  | .rewritten p op a b =>
    .sym 1 :: .sym (policyTok p) :: .sym (opTok op) :: (exprTokens a ++ exprTokens b)

mutual

/-- Serialization of one statement into tokens (the model of quoting
one statement back out). -/
def stmtTokens : Stmt → TokenStream
  | .expr e => .sym 2 :: exprTokens e
  | .block ss => .sym 3 :: (blockTokens ss ++ [.sym 4])
  | .policyBlock p ss => .sym 5 :: .sym (policyTok p) :: (blockTokens ss ++ [.sym 4])

/-- Serialization of a list of statements, in order. -/
def blockTokens : List Stmt → TokenStream
  | [] => []
  | s :: rest => stmtTokens s ++ blockTokens rest

end

/-- Embedding of try_expand (src/src/lib.rs lines 145-152): visit the
block in place with the policy's visitor, then emit the statements in
order, extending an initially empty stream with each statement's
tokens; the result is always wrapped in Ok. -/
def try_expand (p : Policy) (stmts : List Stmt) : Except SynError TokenStream :=
  Except.ok ((visitStmts p stmts).foldl (fun acc s => acc ++ stmtTokens s) [])

/-- Embedding of expand (src/src/lib.rs lines 129-143), with the
external syn parser (parse_macro_input, including the brace wrapping of
the raw input) abstracted as a parameter: a parse failure returns the
error's compile-error stream, otherwise try_expand runs and its error
branch would also return a compile-error stream. -/
def expand (p : Policy) (parse : TokenStream → Except SynError (List Stmt))
    (input : TokenStream) : TokenStream :=
  match parse input with
  | .error e => e.to_compile_error
  | .ok block =>
    match try_expand p block with
    | .ok res => res
    | .error err => err.to_compile_error

/-- Embedding of the default entry point (src/src/lib.rs lines
124-127): it returns its input token stream unchanged. -/
def default (input : TokenStream) : TokenStream :=
  input

/-- One straight-line statement of a function body compiled under the
Propagating policy: an arithmetic operation at some type, labelled with
an identifier used to record execution order. -/
structure PStmt where
  id : Nat
  ty : IntTy
  op : BinOp
  a : Int
  b : Int

/-- Modelled from the spec: runtime semantics of a straight-line
function body whose statements were all rewritten under the Propagating
policy.  Statements run in order; each evaluates its checked operation
and applies the short-circuit propagation operator, so a `none` makes
the enclosing function return `none` immediately.  The first component
records the identifiers of the statements that began executing, in
order; the second is the function's outcome. -/
def runPropagating : List PStmt → List Nat × Option Unit
  | [] => ([], some ())
  | s :: rest =>
    match propagatingEval s.ty s.op s.a s.b with
    | none => ([s.id], none)
    | some _ =>
      let res := runPropagating rest
      (s.id :: res.1, res.2)

theorem IntTy.intMin_le_intMax (t : IntTy) : t.intMin ≤ t.intMax := by
  unfold IntTy.intMin IntTy.intMax
  have h1 : (0 : Int) < 2 ^ (t.bits - 1) := pow_pos (by norm_num) _
  have h2 : (0 : Int) < 2 ^ t.bits := pow_pos (by norm_num) _
  split <;> omega

theorem IntTy.intMax_sub_intMin (t : IntTy) (hb : 0 < t.bits) :
    t.intMax - t.intMin = 2 ^ t.bits - 1 := by
  unfold IntTy.intMax IntTy.intMin
  have h2 : (2 : Int) ^ t.bits = 2 ^ (t.bits - 1) * 2 := by
    rw [← pow_succ]
    congr 1
    omega
  split <;> omega

theorem IntTy.wrap_eq_of_inRange (t : IntTy) (hb : 0 < t.bits) (x : Int)
    (h : t.inRange x) : t.wrap x = x := by
  obtain ⟨h1, h2⟩ := h
  have hms := t.intMax_sub_intMin hb
  unfold IntTy.wrap
  rw [Int.emod_eq_of_lt (by omega) (by omega)]
  omega

theorem IntTy.inRange_wrap (t : IntTy) (hb : 0 < t.bits) (x : Int) :
    t.inRange (t.wrap x) := by
  have hms := t.intMax_sub_intMin hb
  have hpos : (0 : Int) < 2 ^ t.bits := pow_pos (by norm_num) _
  have h1 := Int.emod_nonneg (x - t.intMin) (by omega : (2 : Int) ^ t.bits ≠ 0)
  have h2 := Int.emod_lt_of_pos (x - t.intMin) hpos
  unfold IntTy.wrap IntTy.inRange
  omega

theorem IntTy.wrap_sub_dvd (t : IntTy) (x : Int) :
    (2 : Int) ^ t.bits ∣ t.wrap x - x := by
  refine ⟨-((x - t.intMin) / 2 ^ t.bits), ?_⟩
  have h := Int.emod_add_ediv (x - t.intMin) (2 ^ t.bits)
  unfold IntTy.wrap
  linarith

theorem IntTy.wrap_emod (t : IntTy) (x : Int) :
    t.wrap x % 2 ^ t.bits = x % 2 ^ t.bits :=
  (Int.modEq_iff_dvd.mpr (t.wrap_sub_dvd x)).symm

theorem IntTy.clamp_eq_of_inRange (t : IntTy) (x : Int)
    (h : t.inRange x) : t.clamp x = x := by
  obtain ⟨h1, h2⟩ := h
  unfold IntTy.clamp
  rw [if_neg (by omega), if_neg (by omega)]

/-- C1: for every integer type and every operand pair on which the
operation does not overflow, the code generated by each of the four
policy rewrites (Checked, Overflowing, Saturating, Propagating)
evaluates to the same numeric result as the host default operator. -/
theorem all_policies_agree_when_no_overflow (t : IntTy) (op : BinOp)
    (a b r : Int) (hb : 0 < t.bits) (h : defaultOpResult op a b = some r)
    (hr : t.inRange r) :
    checkedEval t op a b = some r ∧
    overflowingEval t op a b = some r ∧
    saturatingEval t op a b = some r ∧
    propagatingEval t op a b = some r := by
  unfold defaultOpResult at h
  refine ⟨?_, ?_, ?_, ?_⟩
  · unfold checkedEval checkedOp
    rw [h]
    simp [hr]
  · unfold overflowingEval
    rw [h]
    simp [t.wrap_eq_of_inRange hb r hr]
  · unfold saturatingEval
    rw [h]
    simp [t.clamp_eq_of_inRange r hr]
  · unfold propagatingEval checkedOp
    rw [h]
    simp [hr]

/-- Witness for C1: at u8, 3 + 4 does not overflow and all four
policies produce 7, the default result. -/
theorem all_policies_agree_when_no_overflow_witness :
    checkedEval u8 .add 3 4 = some 7 ∧
    overflowingEval u8 .add 3 4 = some 7 ∧
    saturatingEval u8 .add 3 4 = some 7 ∧
    propagatingEval u8 .add 3 4 = some 7 :=
  all_policies_agree_when_no_overflow u8 .add 3 4 7 (by decide) (by decide)
    (by decide)

/-- C2: code generated under the Checked policy aborts (evaluates to
none) exactly when the operation has no representable result, and any
value it does return is the default operator's result in range — never
a wrapped or clamped value. -/
theorem checked_aborts_iff_overflows (t : IntTy) (op : BinOp) (a b : Int) :
    (checkedEval t op a b = none ↔ overflows t op a b) ∧
    (∀ v, checkedEval t op a b = some v →
      defaultOpResult op a b = some v ∧ t.inRange v) := by
  unfold checkedEval checkedOp overflows defaultOpResult
  rcases h : trueResult op a b with _ | r
  · simp
  · by_cases hr : t.inRange r <;> simp [hr]

/-- Witness for C2: at u8, 255 + 1 overflows and the checked code
aborts. -/
theorem checked_aborts_iff_overflows_witness :
    checkedEval u8 .add 255 1 = none :=
  (checked_aborts_iff_overflows u8 .add 255 1).1.mpr (by decide)

/-- C3: code generated under the Overflowing policy never aborts on an
overflowing pair: it yields the wrapped value, which is in range and
congruent to the true mathematical result modulo 2^bits. -/
theorem overflowing_wraps_modulo (t : IntTy) (op : BinOp) (a b r : Int)
    (hb : 0 < t.bits) (h : trueResult op a b = some r)
    (_hover : ¬ t.inRange r) :
    overflowingEval t op a b = some (t.wrap r) ∧
    t.inRange (t.wrap r) ∧
    t.wrap r % 2 ^ t.bits = r % 2 ^ t.bits := by
  refine ⟨?_, t.inRange_wrap hb r, t.wrap_emod r⟩
  unfold overflowingEval
  rw [h]
  rfl

/-- Witness for C3: at u8, 255 + 2 overflows to true result 257 and the
overflowing code yields its wraparound. -/
theorem overflowing_wraps_modulo_witness :
    overflowingEval u8 .add 255 2 = some (u8.wrap 257) ∧
    u8.inRange (u8.wrap 257) ∧
    u8.wrap 257 % 2 ^ u8.bits = 257 % 2 ^ u8.bits :=
  overflowing_wraps_modulo u8 .add 255 2 257 (by decide) (by decide) (by decide)

/-- C4: code generated under the Saturating policy yields exactly the
type's maximum on positive overflow, exactly its minimum on negative
overflow, and the true result when it is in range. -/
theorem saturating_clamps_to_bounds (t : IntTy) (op : BinOp) (a b r : Int)
    (h : trueResult op a b = some r) :
    (t.intMax < r → saturatingEval t op a b = some t.intMax) ∧
    (r < t.intMin → saturatingEval t op a b = some t.intMin) ∧
    (t.inRange r → saturatingEval t op a b = some r) := by
  have hc : saturatingEval t op a b = some (t.clamp r) := by
    unfold saturatingEval
    rw [h]
    rfl
  have hml := t.intMin_le_intMax
  refine ⟨?_, ?_, ?_⟩
  · intro hmax
    rw [hc]
    unfold IntTy.clamp
    rw [if_neg (by omega), if_pos hmax]
  · intro hmin
    rw [hc]
    unfold IntTy.clamp
    rw [if_pos hmin]
  · intro hr
    rw [hc, t.clamp_eq_of_inRange r hr]

/-- Witness for C4: at u8, 255 + 2 overflows positively and the
saturating code yields the maximum of the type. -/
theorem saturating_clamps_to_bounds_witness :
    saturatingEval u8 .add 255 2 = some u8.intMax :=
  (saturating_clamps_to_bounds u8 .add 255 2 257 (by decide)).1 (by decide)

/-- C5: under the Propagating policy an overflowing statement makes the
enclosing function return the absent value immediately: when every
earlier statement succeeds, the executed trace is exactly the earlier
statements followed by the overflowing one, so no statement after it
(in particular none of post) executes, and the outcome is none. -/
theorem propagating_early_exit (pre : List PStmt) (s : PStmt)
    (post : List PStmt)
    (hpre : ∀ p ∈ pre, propagatingEval p.ty p.op p.a p.b ≠ none)
    (hs : propagatingEval s.ty s.op s.a s.b = none) :
    runPropagating (pre ++ s :: post) = (pre.map PStmt.id ++ [s.id], none) := by
  induction pre with
  | nil => simp [runPropagating, hs]
  | cons p rest ih =>
    have hp := hpre p (List.mem_cons_self p rest)
    rcases hq : propagatingEval p.ty p.op p.a p.b with _ | v
    · exact absurd hq hp
    · have ih2 := ih fun x hx => hpre x (List.mem_cons_of_mem p hx)
      simp [runPropagating, hq, ih2]

/-- Witness for C5: a three-statement u8 body whose middle statement
overflows runs only its first two statements and returns none. -/
theorem propagating_early_exit_witness :
    runPropagating
      [⟨0, u8, .add, 1, 2⟩, ⟨1, u8, .add, 255, 1⟩, ⟨2, u8, .add, 1, 1⟩] =
      ([0, 1], none) :=
  propagating_early_exit [⟨0, u8, .add, 1, 2⟩] ⟨1, u8, .add, 255, 1⟩
    [⟨2, u8, .add, 1, 1⟩] (by decide) (by decide)

theorem visitStmts_append (p : Policy) (xs ys : List Stmt) :
    visitStmts p (xs ++ ys) = visitStmts p xs ++ visitStmts p ys := by
  induction xs with
  | nil => rfl
  | cons s rest ih => simp [visitStmts, ih]

/-- C6: policy scoping is strictly lexical: a nested policy-block
invocation is visited under its own policy, while the statements before
and after it in the enclosing scope are visited under the enclosing
policy, which is restored after the nested block. -/
theorem policy_scoping_is_lexical (p q : Policy)
    (pre inner post : List Stmt) :
    visitStmts p (pre ++ Stmt.policyBlock q inner :: post) =
      visitStmts p pre ++
        Stmt.block (visitStmts q inner) :: visitStmts p post := by
  rw [visitStmts_append]
  simp [visitStmts, visitStmt]

/-- C7: the default (reset) entry point returns its input token stream
unchanged, performing no rewriting. -/
theorem default_is_identity (input : TokenStream) :
    Overf.default input = input := rfl

/-- C8: for every input the parser rejects, expand under every policy
returns a single diagnostic node as its entire output; no partially
rewritten block is emitted. -/
theorem expand_parse_failure_yields_single_diagnostic (p : Policy)
    (parse : TokenStream → Except SynError (List Stmt))
    (input : TokenStream) (e : SynError)
    (h : parse input = Except.error e) :
    expand p parse input = [Tok.diag e.msg] := by
  unfold expand
  rw [h]
  rfl

/-- Witness for C8: a parser rejecting the empty stream with message 5
makes expand return exactly that one diagnostic node. -/
theorem expand_parse_failure_yields_single_diagnostic_witness :
    expand .checked (fun _ => Except.error ⟨5⟩) [] = [Tok.diag 5] :=
  expand_parse_failure_yields_single_diagnostic .checked
    (fun _ => Except.error ⟨5⟩) [] ⟨5⟩ rfl

theorem foldl_append_tokens (l : List Stmt) (acc : TokenStream) :
    l.foldl (fun acc s => acc ++ stmtTokens s) acc =
      acc ++ (l.map stmtTokens).flatten := by
  induction l generalizing acc with
  | nil => simp
  | cons s rest ih => simp [List.foldl_cons, ih]

theorem visitStmts_eq_map (p : Policy) (stmts : List Stmt) :
    visitStmts p stmts = stmts.map (visitStmt p) := by
  induction stmts with
  | nil => rfl
  | cons s rest ih => simp [visitStmts, ih]

/-- C9: the output block has the same statements in the same order as
the input — the visitor maps each statement in place, and try_expand
emits the per-statement token streams concatenated in input order;
nothing is reordered, duplicated, or dropped. -/
theorem try_expand_preserves_order (p : Policy) (stmts : List Stmt) :
    visitStmts p stmts = stmts.map (visitStmt p) ∧
    try_expand p stmts =
      Except.ok ((stmts.map fun s => stmtTokens (visitStmt p s)).flatten) := by
  refine ⟨visitStmts_eq_map p stmts, ?_⟩
  unfold try_expand
  rw [foldl_append_tokens, visitStmts_eq_map]
  simp only [List.nil_append, List.map_map]
  rfl

/-- C10: try_expand wraps its result in Ok for every input block, so
the error branch of expand's match on try_expand is unreachable: on
every successful parse, expand returns try_expand's Ok payload, leaving
the parse failure as the only diagnostic path. -/
theorem try_expand_always_ok (p : Policy) (stmts : List Stmt)
    (parse : TokenStream → Except SynError (List Stmt))
    (input : TokenStream) :
    (∃ ts, try_expand p stmts = Except.ok ts) ∧
    (∀ block, parse input = Except.ok block →
      ∃ ts, try_expand p block = Except.ok ts ∧ expand p parse input = ts) := by
  refine ⟨⟨_, rfl⟩, ?_⟩
  intro block h
  refine ⟨_, rfl, ?_⟩
  unfold expand
  rw [h]
  rfl

/-- Witness for C10: with a parser accepting the empty stream as the
empty block, try_expand returns Ok and expand returns its payload. -/
theorem try_expand_always_ok_witness :
    ∃ ts, try_expand .checked [] = Except.ok ts ∧
      expand .checked (fun _ => Except.ok []) [] = ts :=
  (try_expand_always_ok .checked [] (fun _ => Except.ok []) []).2 [] rfl

end Overf
